import Mathlib

/-!
Verification of the trade metrics and portfolio statistics engine of the
koblich-chronicles backend (src/collections/Trades.ts).

The embedding models JavaScript numeric inputs over ℚ.  A field value that
may be a number, a numeric string, a malformed string or absent is modelled
by the inductive type NumInput; JS truthiness and parseFloat are modelled
explicitly.  Machine floats are modelled by exact rationals: the claims under
study are about branch structure, guards and aggregation shape, not float
rounding.
-/

/-- Model of a loosely-typed JS field value as it reaches the hooks:
a genuine number, a string that parseFloat parses, a string parseFloat
rejects (NaN), or an absent (undefined/null) value. -/
inductive NumInput where
  | num (q : ℚ)
  | strNum (q : ℚ)
  | strBad
  | missing
deriving DecidableEq

/-- JS truthiness of a NumInput: numbers are truthy iff nonzero, the modelled
strings are nonempty hence truthy, undefined is falsy. -/
def jsTruthy : NumInput → Bool
  | .num q => decide (q ≠ 0)
  | .strNum _ => true
  | .strBad => true
  | .missing => false

/-- parseFloat, returning none for NaN results. -/
def parseFloatQ : NumInput → Option ℚ
  | .num q => some q
  | .strNum q => some q
  | .strBad => none
  | .missing => none

/-- JS `x || d` for a possibly-absent number x: absent, NaN and 0 all fall
back to d (0 is falsy in JS). -/
def jsOrQ : Option ℚ → ℚ → ℚ
  | none, d => d
  | some q, d => if q = 0 then d else q

/-- `parseFloat(String(exit.shares)) || 0` from the status hook
(Trades.ts line 385): the per-exit contribution to cumulative exited
shares. -/
def coerceShares (x : NumInput) : ℚ := jsOrQ (parseFloatQ x) 0

/-- Trade lifecycle status.  Constructor names abbreviate the source's
select values 'open', 'partial', 'closed'. -/
inductive TradeStatus where
  | stOpen
  | stPart
  | stClosed
deriving DecidableEq

/-- The beforeChange hook of the Trades `status` field (Trades.ts lines
379-398): when exits exist, sum the coerced exit shares; >= total shares
gives closed, > 0 gives partial; otherwise fall through to the submitted
value, defaulting to open. -/
def statusHook (value : Option TradeStatus) (shares : ℚ) (exits : List NumInput) :
    TradeStatus :=
  if 0 < exits.length then
    let totalSharesExited := exits.foldl (fun sum x => sum + coerceShares x) 0
    if totalSharesExited ≥ shares then TradeStatus.stClosed
    else if totalSharesExited > 0 then TradeStatus.stPart
    else value.getD TradeStatus.stOpen
  else value.getD TradeStatus.stOpen

/-- Cumulative exited shares as the spec states it: the sum of the exit
records' coerced shares values. -/
def cumulativeExitedShares (exits : List NumInput) : ℚ :=
  (exits.map coerceShares).sum

/-- `parseFloat(x.toFixed(2))`: round to 2 decimal places, ties toward the
larger integer numerator, as ECMAScript toFixed specifies. -/
def round2 (q : ℚ) : ℚ := ((⌊q * 100 + 1 / 2⌋ : ℤ) : ℚ) / 100

/-- The beforeChange hook of the Trades `positionSize` field (Trades.ts
lines 509-521): when entryPrice and shares are truthy and both parse,
return the rounded product; otherwise return the submitted positionSize
unchanged. -/
def positionSizeHook (entryPrice shares : NumInput) (positionSize : Option ℚ) :
    Option ℚ :=
  if jsTruthy entryPrice && jsTruthy shares then
    match parseFloatQ entryPrice, parseFloatQ shares with
    | some ep, some sh => some (round2 (ep * sh))
    | _, _ => positionSize
  else positionSize

/-! Bridging lemmas between the reduce-style folds of the code and
map/sum form. -/

theorem foldl_add_eq {α : Type} (f : α → ℚ) :
    ∀ (l : List α) (c : ℚ), l.foldl (fun s t => s + f t) c = c + (l.map f).sum
  | [], c => by simp
  | x :: xs, c => by
    simp only [List.foldl_cons, List.map_cons, List.sum_cons]
    rw [foldl_add_eq f xs, add_assoc]

theorem statusHook_fold_eq (exits : List NumInput) :
    exits.foldl (fun sum x => sum + coerceShares x) 0 = cumulativeExitedShares exits := by
  rw [cumulativeExitedShares, foldl_add_eq, zero_add]

/-- C1: status derivation on a trade write (total shares positive, per the
data model): cumulative exited shares at least the total gives closed,
strictly between zero and the total gives partial, and zero keeps the
submitted value, defaulting to open when none was given. -/
theorem c1_status_derivation (value : Option TradeStatus) (shares : ℚ)
    (exits : List NumInput) (hpos : 0 < shares) :
    (cumulativeExitedShares exits ≥ shares →
      statusHook value shares exits = TradeStatus.stClosed) ∧
    (0 < cumulativeExitedShares exits → cumulativeExitedShares exits < shares →
      statusHook value shares exits = TradeStatus.stPart) ∧
    (cumulativeExitedShares exits = 0 →
      statusHook value shares exits = value.getD TradeStatus.stOpen) := by
  unfold statusHook
  rw [statusHook_fold_eq]
  rcases exits with _ | ⟨e, es⟩
  · refine ⟨fun h => absurd (lt_of_lt_of_le hpos h) ?_, fun h _ => absurd h ?_, fun _ => rfl⟩
    · simp [cumulativeExitedShares]
    · simp [cumulativeExitedShares]
  · simp only [List.length_cons, Nat.zero_lt_succ, if_true]
    refine ⟨fun h => by rw [if_pos h], fun h1 h2 => ?_, fun h0 => ?_⟩
    · rw [if_neg (not_le.mpr h2), if_pos h1]
    · rw [if_neg (by rw [h0]; exact not_le.mpr hpos), if_neg (by rw [h0]; exact lt_irrefl 0)]

/-- Witness for C1 at a concrete input: one exit of 10 shares against 10
total shares forces closed even though partial was submitted. -/
theorem c1_status_derivation_witness :
    statusHook (some TradeStatus.stPart) 10 [NumInput.num 10] = TradeStatus.stClosed :=
  (c1_status_derivation (some TradeStatus.stPart) 10 [NumInput.num 10]
    (by norm_num)).1
    (by norm_num [cumulativeExitedShares, coerceShares, parseFloatQ, jsOrQ])

/-- C7: status derivation is idempotent: feeding the derived status back in
as the submitted value re-derives the same status. -/
theorem c7_status_idempotent (value : Option TradeStatus) (shares : ℚ)
    (exits : List NumInput) :
    statusHook (some (statusHook value shares exits)) shares exits =
      statusHook value shares exits := by
  unfold statusHook
  rcases exits with _ | ⟨e, es⟩
  · simp
  · simp only [List.length_cons, Nat.zero_lt_succ, if_true]
    split
    next h => rfl
    next h =>
      split
      next h2 => rfl
      next h2 => rfl

/-- C6 counterexample: with entryPrice absent, shares 5 and a previously
submitted positionSize of 42, the positionSize hook keeps 42; it does not
degrade the field to 0 as the claim states. -/
theorem c6_counterexample :
    positionSizeHook NumInput.missing (NumInput.num 5) (some 42) = some 42 ∧
    positionSizeHook NumInput.missing (NumInput.num 5) (some 42) ≠ some 0 := by
  decide

/-- C6 amended: derived-field computation is total (never raises): a
malformed exit-shares value contributes 0 to cumulative exited shares, and
when entryPrice or shares is falsy or fails to parse, the positionSize hook
keeps the previously submitted positionSize value (possibly absent) rather
than recomputing or zeroing it. -/
theorem c6_defensive_coercions (ep sh : NumInput) (pos : Option ℚ)
    (x : NumInput) (exits : List NumInput)
    (hx : parseFloatQ x = none)
    (hbad : jsTruthy ep = false ∨ jsTruthy sh = false ∨
      parseFloatQ ep = none ∨ parseFloatQ sh = none) :
    cumulativeExitedShares (x :: exits) = cumulativeExitedShares exits ∧
    positionSizeHook ep sh pos = pos := by
  constructor
  · simp [cumulativeExitedShares, coerceShares, hx, jsOrQ]
  · unfold positionSizeHook
    rcases hbad with h | h | h | h
    · rw [h]; simp
    · rw [h]; simp [Bool.and_false]
    · split
      · rw [h]
      · rfl
    · split
      · rw [h]; rcases parseFloatQ ep with _ | q <;> rfl
      · rfl

/-- Witness for C6 amended at concrete inputs: a malformed shares string
contributes nothing, and the hook keeps positionSize 42 when entryPrice is
absent. -/
theorem c6_defensive_coercions_witness :
    cumulativeExitedShares [NumInput.strBad, NumInput.num 3] =
      cumulativeExitedShares [NumInput.num 3] ∧
    positionSizeHook NumInput.missing (NumInput.num 5) (some 42) = some 42 :=
  c6_defensive_coercions NumInput.missing (NumInput.num 5) (some 42)
    NumInput.strBad [NumInput.num 3] (by decide) (Or.inl (by decide))

/-! The /stats endpoint date filter (Trades.ts lines 674-714).  Dates are
modelled as integer millisecond timestamps; a date-only query parameter
parses to the local midnight of its calendar day. -/

/-- The part of a fetched trade document that the date filter reads. -/
structure FilterTrade where
  entryDate : Int
  exitDates : List Int
deriving DecidableEq

/-- The completion date the filter computes (Trades.ts lines 680-694): with
exits present, reduce over all exits with the first exit's date as the
initial accumulator, keeping the later date; with no exits, fall back to
the entry date. -/
def completionDate (t : FilterTrade) : Int :=
  match t.exitDates with
  | [] => t.entryDate
  | d0 :: rest => (d0 :: rest).foldl (fun latest d => if d > latest then d else latest) d0

/-- `filterEndDate.setHours(23, 59, 59, 999)` applied to the parsed local
midnight of the endDate day (Trades.ts line 706). -/
def endOfDay (e : Int) : Int := e + 86399999

/-- The per-trade inclusion predicate of the date filter (Trades.ts lines
696-712): reject when the completion date is strictly before the start
instant, reject when it is strictly after the end of the endDate day,
otherwise keep. -/
def includeTrade (startDate endDate : Option Int) (t : FilterTrade) : Bool :=
  (match startDate with
   | some s => !decide (completionDate t < s)
   | none => true)
  &&
  (match endDate with
   | some e => !decide (completionDate t > endOfDay e)
   | none => true)

/-- The date filter applied by the endpoint: active only when a start or an
end date was supplied (Trades.ts line 677). -/
def filterTradesByDate (startDate endDate : Option Int)
    (trades : List FilterTrade) : List FilterTrade :=
  if startDate.isSome || endDate.isSome then
    trades.filter (includeTrade startDate endDate)
  else trades

/-- Spec-side range check on a single instant: at or after the start, and at
or before the end of the endDate day. -/
def inDateRange (startDate endDate : Option Int) (c : Int) : Bool :=
  (match startDate with
   | some s => decide (s ≤ c)
   | none => true)
  &&
  (match endDate with
   | some e => decide (c ≤ endOfDay e)
   | none => true)

theorem foldl_keepLater_eq_max (l : List Int) :
    ∀ b : Int, l.foldl (fun latest d => if d > latest then d else latest) b =
      l.foldl max b := by
  induction l with
  | nil => intro b; rfl
  | cons x xs ih =>
    intro b
    simp only [List.foldl_cons]
    rw [ih]
    congr 1
    rcases lt_or_ge b x with h | h
    · rw [if_pos h, max_eq_right (le_of_lt h)]
    · rw [if_neg (not_lt.mpr h), max_eq_left h]

theorem foldl_max_le_iff {α : Type} [LinearOrder α] (l : List α) :
    ∀ (b c : α), l.foldl max b ≤ c ↔ b ≤ c ∧ ∀ d ∈ l, d ≤ c := by
  induction l with
  | nil => intro b c; simp
  | cons x xs ih =>
    intro b c
    simp only [List.foldl_cons, ih, max_le_iff, List.mem_cons]
    constructor
    · rintro ⟨⟨hb, hx⟩, hall⟩
      exact ⟨hb, fun d hd => hd.elim (fun h => h ▸ hx) (hall d)⟩
    · rintro ⟨hb, hall⟩
      exact ⟨⟨hb, hall x (Or.inl rfl)⟩, fun d hd => hall d (Or.inr hd)⟩

theorem le_foldl_max_self {α : Type} [LinearOrder α] (l : List α) :
    ∀ b : α, b ≤ l.foldl max b := by
  induction l with
  | nil => intro b; exact le_refl b
  | cons x xs ih =>
    intro b
    exact le_trans (le_max_left b x) (ih (max b x))

theorem foldl_max_mem {α : Type} [LinearOrder α] (l : List α) :
    ∀ b : α, l.foldl max b = b ∨ l.foldl max b ∈ l := by
  induction l with
  | nil => intro b; exact Or.inl rfl
  | cons x xs ih =>
    intro b
    rcases ih (max b x) with h | h
    · rcases max_cases b x with ⟨he, _⟩ | ⟨he, _⟩
      · exact Or.inl (by rw [List.foldl_cons, h, he])
      · exact Or.inr (by rw [List.foldl_cons, h, he]; exact List.mem_cons_self x xs)
    · exact Or.inr (List.mem_cons_of_mem x h)

/-- The completion date of a trade with exits is the greatest exit date. -/
theorem completionDate_spec (t : FilterTrade) (h : t.exitDates ≠ []) :
    completionDate t ∈ t.exitDates ∧ ∀ d ∈ t.exitDates, d ≤ completionDate t := by
  obtain ⟨ed, exs⟩ := t
  rcases exs with _ | ⟨d0, rest⟩
  · exact absurd rfl h
  · have hc : completionDate ⟨ed, d0 :: rest⟩ = (d0 :: rest).foldl max d0 := by
      show (d0 :: rest).foldl (fun latest d => if d > latest then d else latest) d0 =
        (d0 :: rest).foldl max d0
      exact foldl_keepLater_eq_max _ _
    constructor
    · show completionDate ⟨ed, d0 :: rest⟩ ∈ d0 :: rest
      rw [hc]
      rcases foldl_max_mem (d0 :: rest) d0 with h0 | h0
      · rw [h0]; exact List.mem_cons_self d0 rest
      · exact h0
    · intro d hd
      show d ≤ completionDate ⟨ed, d0 :: rest⟩
      rw [hc]
      have hle := (foldl_max_le_iff (d0 :: rest) d0 ((d0 :: rest).foldl max d0)).mp
        (le_refl _)
      exact hle.2 d hd

/-- The inclusion test is exactly a range check on the completion date. -/
theorem includeTrade_eq_inDateRange (startDate endDate : Option Int)
    (t : FilterTrade) :
    includeTrade startDate endDate t =
      inDateRange startDate endDate (completionDate t) := by
  unfold includeTrade inDateRange
  congr 1
  · rcases startDate with _ | s
    · rfl
    · simp [← decide_not, not_le]
  · rcases endDate with _ | e
    · rfl
    · simp [← decide_not, not_le]

/-- C5: the date filter decides inclusion by the trade's completion date:
the greatest exit date when exits exist (so the entry date is then
irrelevant), the entry date only as fallback when there are no exits; a
trade is kept exactly when that completion date lies in the supplied
range. -/
theorem c5_completion_date_filter (startDate endDate : Option Int)
    (t : FilterTrade) :
    (t.exitDates ≠ [] →
      completionDate t ∈ t.exitDates ∧
      (∀ d ∈ t.exitDates, d ≤ completionDate t) ∧
      ∀ ed : Int, includeTrade startDate endDate { t with entryDate := ed } =
        includeTrade startDate endDate t) ∧
    (t.exitDates = [] → completionDate t = t.entryDate) ∧
    includeTrade startDate endDate t =
      inDateRange startDate endDate (completionDate t) := by
  refine ⟨fun h => ⟨(completionDate_spec t h).1, (completionDate_spec t h).2, fun ed => ?_⟩,
    fun h => ?_, includeTrade_eq_inDateRange startDate endDate t⟩
  · have hcd : completionDate { t with entryDate := ed } = completionDate t := by
      unfold completionDate
      rcases ht : t.exitDates with _ | ⟨d0, rest⟩
      · exact absurd ht h
      · rfl
    unfold includeTrade
    rw [hcd]
  · unfold completionDate
    rw [h]

/-- Witness for C5 at a concrete input: for a trade entered at 0 with exits
dated 50 and 80, the completion date 80 is an exit date, and changing the
entry date to 999 does not change inclusion in the range 60..70. -/
theorem c5_completion_date_filter_witness :
    completionDate { entryDate := 0, exitDates := [50, 80] } ∈
      ([50, 80] : List Int) ∧
    includeTrade (some 60) (some 70)
        { entryDate := 999, exitDates := [50, 80] } =
      includeTrade (some 60) (some 70) { entryDate := 0, exitDates := [50, 80] } :=
  ⟨((c5_completion_date_filter (some 60) (some 70)
      { entryDate := 0, exitDates := [50, 80] }).1 (by decide)).1,
   ((c5_completion_date_filter (some 60) (some 70)
      { entryDate := 0, exitDates := [50, 80] }).1 (by decide)).2.2 999⟩

/-- C10: with both dates supplied, a trade is kept iff its completion date
is at or after the start instant and at most 86399999 ms after the parsed
endDate midnight, i.e. the range is inclusive through 23:59:59.999 of the
endDate day and exclusive of completions strictly before the start. -/
theorem c10_end_of_day_inclusive (s e : Int) (t : FilterTrade) :
    includeTrade (some s) (some e) t = true ↔
      s ≤ completionDate t ∧ completionDate t ≤ e + 86399999 := by
  rw [includeTrade_eq_inDateRange]
  unfold inDateRange endOfDay
  simp

/-! The portfolio statistics aggregator calculateTradeStats (Trades.ts lines
1016-1271).  A fetched trade document is modelled by the fields the
aggregator reads (the TradeForStats interface).  The big arrow function is
decomposed into one top-level definition per computed statistic, each
mirroring the corresponding assignment in the source. -/

/-- The normalizedMetrics group of a trade document. -/
structure NormalizedMetrics where
  profitLossAmount : ℚ
  profitLossPercent : ℚ
  rRatio : Option ℚ
deriving DecidableEq

/-- TradeStatus of a stats document is only compared against 'closed' and
'partial' string literals; reuse TradeStatus. -/
structure Trade where
  profitLossAmount : ℚ
  profitLossPercent : ℚ
  rRatio : Option ℚ
  daysHeld : Option ℚ
  entryPrice : ℚ
  shares : ℚ
  status : TradeStatus
  normalizedMetrics : Option NormalizedMetrics
  normalizationFactor : Option ℚ
  positionSize : ℚ
deriving DecidableEq

/-- The normalized sub-object of the statistics snapshot. -/
structure NormalizedStats where
  totalProfitLoss : ℚ
  totalProfitLossPercent : ℚ
  averageRRatio : ℚ
  profitFactor : ℚ
  maxGainPercent : ℚ
  maxLossPercent : ℚ
  maxGainLossRatio : ℚ
  averageWinPercent : ℚ
  averageLossPercent : ℚ
  winLossRatio : ℚ
  adjustedWinLossRatio : ℚ
  expectancy : ℚ
deriving DecidableEq

/-- The statistics snapshot (interface TradeStats).  The nested
tradeStatusCounts object is flattened into two count fields. -/
structure TradeStats where
  totalTrades : ℕ
  winningTrades : ℕ
  losingTrades : ℕ
  breakEvenTrades : ℕ
  battingAverage : ℚ
  averageWinPercent : ℚ
  averageLossPercent : ℚ
  winLossRatio : ℚ
  adjustedWinLossRatio : ℚ
  averageRRatio : ℚ
  profitFactor : ℚ
  expectancy : ℚ
  averageDaysHeldWinners : ℚ
  averageDaysHeldLosers : ℚ
  maxGainPercent : ℚ
  maxLossPercent : ℚ
  maxGainLossRatio : ℚ
  totalProfitLoss : ℚ
  totalProfitLossPercent : ℚ
  statusCountClosed : ℕ
  statusCountPart : ℕ
  normalized : NormalizedStats
deriving DecidableEq

/-- Access trade.normalizedMetrics.profitLossAmount; the source only reads
it behind the isSome filter, 0 is an unreachable default. -/
def nmPLAmount (t : Trade) : ℚ :=
  match t.normalizedMetrics with
  | some m => m.profitLossAmount
  | none => 0

/-- Access trade.normalizedMetrics.profitLossPercent behind the isSome
filter. -/
def nmPLPercent (t : Trade) : ℚ :=
  match t.normalizedMetrics with
  | some m => m.profitLossPercent
  | none => 0

/-- Access trade.normalizedMetrics.rRatio behind the isSome filter. -/
def nmRRatio (t : Trade) : Option ℚ :=
  match t.normalizedMetrics with
  | some m => m.rRatio
  | none => none

/-- reduce((sum, trade) => sum + f trade, 0). -/
def sumBy {α : Type} (f : α → ℚ) (l : List α) : ℚ :=
  l.foldl (fun s t => s + f t) 0

/-- Math.max over a spread list, 0 for the empty list (the source guards
the empty case with a ternary yielding 0). -/
def listMax : List ℚ → ℚ
  | [] => 0
  | x :: xs => xs.foldl max x

/-- Math.min over a spread list, 0 for the empty list. -/
def listMin : List ℚ → ℚ
  | [] => 0
  | x :: xs => xs.foldl min x

/-- Trades pushed into the winners array: profitLossPercent > 0. -/
def winnersOf (trades : List Trade) : List Trade :=
  trades.filter (fun t => decide (t.profitLossPercent > 0))

/-- Trades pushed into the losers array: profitLossPercent < 0. -/
def losersOf (trades : List Trade) : List Trade :=
  trades.filter (fun t => decide (t.profitLossPercent < 0))

/-- Trades pushed into the breakEven array: the else branch of the
partition. -/
def breakEvenOf (trades : List Trade) : List Trade :=
  trades.filter (fun t =>
    !decide (t.profitLossPercent > 0) && !decide (t.profitLossPercent < 0))

/-- battingAverage = (winners.length / trades.length) * 100. -/
def battingAverageOf (trades : List Trade) : ℚ :=
  ((winnersOf trades).length : ℚ) / (trades.length : ℚ) * 100

/-- averageWinPercent: mean of winners' profitLossPercent, 0 when there are
no winners. -/
def averageWinPercentOf (trades : List Trade) : ℚ :=
  if (winnersOf trades).length = 0 then 0
  else sumBy (fun t => t.profitLossPercent) (winnersOf trades) /
    ((winnersOf trades).length : ℚ)

/-- averageLossPercent: mean of losers' profitLossPercent (signed), 0 when
there are no losers. -/
def averageLossPercentOf (trades : List Trade) : ℚ :=
  if (losersOf trades).length = 0 then 0
  else sumBy (fun t => t.profitLossPercent) (losersOf trades) /
    ((losersOf trades).length : ℚ)

/-- winLossRatio: |averageWin / averageLoss| guarded on a zero
averageLossPercent. -/
def winLossRatioOf (trades : List Trade) : ℚ :=
  if averageLossPercentOf trades ≠ 0 then
    |averageWinPercentOf trades / averageLossPercentOf trades|
  else 0

/-- adjustedWinLossRatio: expectancy-weighted ratio, computed only when
averageLossPercent is nonzero and battingAverage < 100. -/
def adjustedWinLossRatioOf (trades : List Trade) : ℚ :=
  if averageLossPercentOf trades ≠ 0 ∧ battingAverageOf trades < 100 then
    (battingAverageOf trades / 100 * averageWinPercentOf trades) /
      ((1 - battingAverageOf trades / 100) * |averageLossPercentOf trades|)
  else 0

/-- averageRRatio: mean of (trade.rRatio || 0) over all trades. -/
def averageRRatioOf (trades : List Trade) : ℚ :=
  sumBy (fun t => jsOrQ t.rRatio 0) trades / (trades.length : ℚ)

/-- grossWins: sum of winners' profitLossAmount. -/
def grossWinsOf (trades : List Trade) : ℚ :=
  sumBy (fun t => t.profitLossAmount) (winnersOf trades)

/-- grossLosses: |sum of losers' profitLossAmount|. -/
def grossLossesOf (trades : List Trade) : ℚ :=
  |sumBy (fun t => t.profitLossAmount) (losersOf trades)|

/-- profitFactor guarded on zero gross losses. -/
def profitFactorOf (trades : List Trade) : ℚ :=
  if grossLossesOf trades ≠ 0 then grossWinsOf trades / grossLossesOf trades
  else 0

/-- expectancy = winRate * averageWin + (1 - winRate) * averageLoss. -/
def expectancyOf (trades : List Trade) : ℚ :=
  battingAverageOf trades / 100 * averageWinPercentOf trades +
    (1 - battingAverageOf trades / 100) * averageLossPercentOf trades

/-- averageDaysHeldWinners: mean of (daysHeld || 0) over winners. -/
def averageDaysHeldWinnersOf (trades : List Trade) : ℚ :=
  if (winnersOf trades).length = 0 then 0
  else sumBy (fun t => jsOrQ t.daysHeld 0) (winnersOf trades) /
    ((winnersOf trades).length : ℚ)

/-- averageDaysHeldLosers: mean of (daysHeld || 0) over losers. -/
def averageDaysHeldLosersOf (trades : List Trade) : ℚ :=
  if (losersOf trades).length = 0 then 0
  else sumBy (fun t => jsOrQ t.daysHeld 0) (losersOf trades) /
    ((losersOf trades).length : ℚ)

/-- maxGainPercent = Math.max over winners' percents, 0 when none. -/
def maxGainPercentOf (trades : List Trade) : ℚ :=
  listMax ((winnersOf trades).map (fun t => t.profitLossPercent))

/-- maxLossPercent = Math.min over losers' percents, 0 when none. -/
def maxLossPercentOf (trades : List Trade) : ℚ :=
  listMin ((losersOf trades).map (fun t => t.profitLossPercent))

/-- maxGainLossRatio guarded on zero maxLossPercent. -/
def maxGainLossRatioOf (trades : List Trade) : ℚ :=
  if maxLossPercentOf trades ≠ 0 then
    |maxGainPercentOf trades / maxLossPercentOf trades|
  else 0

/-- totalProfitLoss: sum of all trades' profitLossAmount. -/
def totalProfitLossOf (trades : List Trade) : ℚ :=
  sumBy (fun t => t.profitLossAmount) trades

/-- totalInvested: sum of entryPrice * shares over all trades. -/
def totalInvestedOf (trades : List Trade) : ℚ :=
  sumBy (fun t => t.entryPrice * t.shares) trades

/-- totalProfitLossPercent guarded on zero total investment. -/
def totalProfitLossPercentOf (trades : List Trade) : ℚ :=
  if totalInvestedOf trades ≠ 0 then
    totalProfitLossOf trades / totalInvestedOf trades * 100
  else 0

/-! Normalized sub-section (Trades.ts lines 1153-1268).  In the source the
whole block runs under `if (normalizedTrades.length > 0)` and otherwise
leaves the zero initializers in place.  Each definition below evaluates to
that zero initializer when the normalized trade list is empty (folds over
an empty list are 0 and every division is guarded), so the outer length
guard is dropped without changing any value. -/

/-- normalizedTrades: trades carrying a normalizedMetrics value. -/
def normalizedTradesOf (trades : List Trade) : List Trade :=
  trades.filter (fun t => t.normalizedMetrics.isSome)

/-- normalizedWinners: normalized profitLossPercent > 0. -/
def normalizedWinnersOf (trades : List Trade) : List Trade :=
  (normalizedTradesOf trades).filter (fun t => decide (nmPLPercent t > 0))

/-- normalizedLosers: normalized profitLossPercent < 0. -/
def normalizedLosersOf (trades : List Trade) : List Trade :=
  (normalizedTradesOf trades).filter (fun t => decide (nmPLPercent t < 0))

/-- normalized.totalProfitLoss: sum of (normalizedMetrics.profitLossAmount
|| 0); on ℚ the || 0 fallback is the identity. -/
def normTotalProfitLossOf (trades : List Trade) : ℚ :=
  sumBy nmPLAmount (normalizedTradesOf trades)

/-- The estimated normalized investment (Trades.ts lines 1172-1175):
factor = normalizationFactor || 1 (so absent or 0 becomes 1), and only a
positive factor contributes positionSize / factor. -/
def normalizedInvestmentOf (trades : List Trade) : ℚ :=
  (normalizedTradesOf trades).foldl
    (fun sum t =>
      let factor := jsOrQ t.normalizationFactor 1
      if factor > 0 then sum + t.positionSize / factor else sum) 0

/-- normalized.totalProfitLossPercent guarded on a zero normalized
investment. -/
def normTotalProfitLossPercentOf (trades : List Trade) : ℚ :=
  if normalizedInvestmentOf trades ≠ 0 then
    normTotalProfitLossOf trades / normalizedInvestmentOf trades * 100
  else 0

/-- normalized.maxGainPercent: forEach accumulation of the greatest
normalized winner percent starting from 0. -/
def normMaxGainPercentOf (trades : List Trade) : ℚ :=
  (normalizedWinnersOf trades).foldl
    (fun acc t => if nmPLPercent t > acc then nmPLPercent t else acc) 0

/-- normalized.averageWinPercent: mean over normalized winners. -/
def normAverageWinPercentOf (trades : List Trade) : ℚ :=
  if (normalizedWinnersOf trades).length = 0 then 0
  else sumBy nmPLPercent (normalizedWinnersOf trades) /
    ((normalizedWinnersOf trades).length : ℚ)

/-- normalized.maxLossPercent: forEach accumulation of the least normalized
loser percent starting from 0. -/
def normMaxLossPercentOf (trades : List Trade) : ℚ :=
  (normalizedLosersOf trades).foldl
    (fun acc t => if nmPLPercent t < acc then nmPLPercent t else acc) 0

/-- normalized.averageLossPercent: mean over normalized losers. -/
def normAverageLossPercentOf (trades : List Trade) : ℚ :=
  if (normalizedLosersOf trades).length = 0 then 0
  else sumBy nmPLPercent (normalizedLosersOf trades) /
    ((normalizedLosersOf trades).length : ℚ)

/-- normalized.winLossRatio guarded on a zero normalized
averageLossPercent. -/
def normWinLossRatioOf (trades : List Trade) : ℚ :=
  if normAverageLossPercentOf trades ≠ 0 then
    |normAverageWinPercentOf trades / normAverageLossPercentOf trades|
  else 0

/-- normalized.adjustedWinLossRatio: note the winRate comes from the RAW
battingAverage computed over all trades (Trades.ts line 1234). -/
def normAdjustedWinLossRatioOf (trades : List Trade) : ℚ :=
  if normAverageLossPercentOf trades ≠ 0 ∧ battingAverageOf trades < 100 then
    (battingAverageOf trades / 100 * normAverageWinPercentOf trades) /
      ((1 - battingAverageOf trades / 100) * |normAverageLossPercentOf trades|)
  else 0

/-- normalized.maxGainLossRatio guarded on a zero normalized
maxLossPercent. -/
def normMaxGainLossRatioOf (trades : List Trade) : ℚ :=
  if normMaxLossPercentOf trades ≠ 0 then
    |normMaxGainPercentOf trades / normMaxLossPercentOf trades|
  else 0

/-- normalized.averageRRatio: mean of (normalizedMetrics.rRatio || 0) over
normalized trades. -/
def normAverageRRatioOf (trades : List Trade) : ℚ :=
  sumBy (fun t => jsOrQ (nmRRatio t) 0) (normalizedTradesOf trades) /
    ((normalizedTradesOf trades).length : ℚ)

/-- normalizedGrossWins. -/
def normGrossWinsOf (trades : List Trade) : ℚ :=
  sumBy nmPLAmount (normalizedWinnersOf trades)

/-- normalizedGrossLosses. -/
def normGrossLossesOf (trades : List Trade) : ℚ :=
  |sumBy nmPLAmount (normalizedLosersOf trades)|

/-- normalized.profitFactor guarded on zero normalized gross losses. -/
def normProfitFactorOf (trades : List Trade) : ℚ :=
  if normGrossLossesOf trades ≠ 0 then
    normGrossWinsOf trades / normGrossLossesOf trades
  else 0

/-- normalized.expectancy: again weighted by the RAW battingAverage
(Trades.ts lines 1265-1267). -/
def normExpectancyOf (trades : List Trade) : ℚ :=
  battingAverageOf trades / 100 * normAverageWinPercentOf trades +
    (1 - battingAverageOf trades / 100) * normAverageLossPercentOf trades

/-- The initialized stats object (Trades.ts lines 1023-1061): every
statistic 0 except totalTrades and the status counts, which are computed
before the empty-set early return. -/
def initialTradeStats (trades : List Trade) : TradeStats where
  totalTrades := trades.length
  winningTrades := 0
  losingTrades := 0
  breakEvenTrades := 0
  battingAverage := 0
  averageWinPercent := 0
  averageLossPercent := 0
  winLossRatio := 0
  adjustedWinLossRatio := 0
  averageRRatio := 0
  profitFactor := 0
  expectancy := 0
  averageDaysHeldWinners := 0
  averageDaysHeldLosers := 0
  maxGainPercent := 0
  maxLossPercent := 0
  maxGainLossRatio := 0
  totalProfitLoss := 0
  totalProfitLossPercent := 0
  statusCountClosed := (trades.filter (fun t => decide (t.status = TradeStatus.stClosed))).length
  statusCountPart := (trades.filter (fun t => decide (t.status = TradeStatus.stPart))).length
  normalized := ⟨0, 0, 0, 0, 0, 0, 0, 0, 0, 0, 0, 0⟩

/-- calculateTradeStats (Trades.ts lines 1016-1271): return the initialized
stats for an empty set, otherwise the record of all computed statistics. -/
def calculateTradeStats (trades : List Trade) : TradeStats :=
  if trades.length = 0 then initialTradeStats trades
  else
    { totalTrades := trades.length
      winningTrades := (winnersOf trades).length
      losingTrades := (losersOf trades).length
      breakEvenTrades := (breakEvenOf trades).length
      battingAverage := battingAverageOf trades
      averageWinPercent := averageWinPercentOf trades
      averageLossPercent := averageLossPercentOf trades
      winLossRatio := winLossRatioOf trades
      adjustedWinLossRatio := adjustedWinLossRatioOf trades
      averageRRatio := averageRRatioOf trades
      profitFactor := profitFactorOf trades
      expectancy := expectancyOf trades
      averageDaysHeldWinners := averageDaysHeldWinnersOf trades
      averageDaysHeldLosers := averageDaysHeldLosersOf trades
      maxGainPercent := maxGainPercentOf trades
      maxLossPercent := maxLossPercentOf trades
      maxGainLossRatio := maxGainLossRatioOf trades
      totalProfitLoss := totalProfitLossOf trades
      totalProfitLossPercent := totalProfitLossPercentOf trades
      statusCountClosed :=
        (trades.filter (fun t => decide (t.status = TradeStatus.stClosed))).length
      statusCountPart :=
        (trades.filter (fun t => decide (t.status = TradeStatus.stPart))).length
      normalized :=
        { totalProfitLoss := normTotalProfitLossOf trades
          totalProfitLossPercent := normTotalProfitLossPercentOf trades
          averageRRatio := normAverageRRatioOf trades
          profitFactor := normProfitFactorOf trades
          maxGainPercent := normMaxGainPercentOf trades
          maxLossPercent := normMaxLossPercentOf trades
          maxGainLossRatio := normMaxGainLossRatioOf trades
          averageWinPercent := normAverageWinPercentOf trades
          averageLossPercent := normAverageLossPercentOf trades
          winLossRatio := normWinLossRatioOf trades
          adjustedWinLossRatio := normAdjustedWinLossRatioOf trades
          expectancy := normExpectancyOf trades } }

theorem sumBy_eq_sum {α : Type} (f : α → ℚ) (l : List α) :
    sumBy f l = (l.map f).sum := by
  rw [sumBy, foldl_add_eq, zero_add]

/-- C4: the aggregator on the empty trade set returns (without raising) the
snapshot with every statistic equal to 0, normalized sub-section
included. -/
theorem c4_empty_stats :
    calculateTradeStats [] =
      { totalTrades := 0
        winningTrades := 0
        losingTrades := 0
        breakEvenTrades := 0
        battingAverage := 0
        averageWinPercent := 0
        averageLossPercent := 0
        winLossRatio := 0
        adjustedWinLossRatio := 0
        averageRRatio := 0
        profitFactor := 0
        expectancy := 0
        averageDaysHeldWinners := 0
        averageDaysHeldLosers := 0
        maxGainPercent := 0
        maxLossPercent := 0
        maxGainLossRatio := 0
        totalProfitLoss := 0
        totalProfitLossPercent := 0
        statusCountClosed := 0
        statusCountPart := 0
        normalized := ⟨0, 0, 0, 0, 0, 0, 0, 0, 0, 0, 0, 0⟩ } := by
  rfl

/-- C9: winners are exactly the trades with strictly positive
profitLossPercent, losers exactly those with strictly negative, zero counts
as break-even, and battingAverage is winners over total times 100. -/
theorem c9_partition (trades : List Trade) :
    (calculateTradeStats trades).winningTrades =
      (trades.filter (fun t => decide (t.profitLossPercent > 0))).length ∧
    (calculateTradeStats trades).losingTrades =
      (trades.filter (fun t => decide (t.profitLossPercent < 0))).length ∧
    (calculateTradeStats trades).breakEvenTrades =
      (trades.filter (fun t => decide (t.profitLossPercent = 0))).length ∧
    (calculateTradeStats trades).battingAverage =
      ((calculateTradeStats trades).winningTrades : ℚ) /
        ((calculateTradeStats trades).totalTrades : ℚ) * 100 := by
  have hbe : trades.filter
      (fun t => !decide (t.profitLossPercent > 0) && !decide (t.profitLossPercent < 0)) =
      trades.filter (fun t => decide (t.profitLossPercent = 0)) := by
    apply List.filter_congr
    intro t _
    rcases lt_trichotomy t.profitLossPercent 0 with h | h | h
    · simp [h, asymm h, ne_of_lt h]
    · simp [h]
    · simp [h, asymm h, ne_of_gt h]
  unfold calculateTradeStats
  split
  next hlen =>
    have : trades = [] := List.length_eq_zero.mp hlen
    subst this
    refine ⟨rfl, rfl, rfl, ?_⟩
    show (0 : ℚ) = ((0 : ℕ) : ℚ) / ((0 : ℕ) : ℚ) * 100
    norm_num
  next hlen =>
    exact ⟨rfl, rfl, congrArg List.length (hbe ▸ rfl), rfl⟩

/-- C3: every division of the aggregator is guarded: zero average loss
kills winLossRatio, zero average loss or a 100 batting average kills
adjustedWinLossRatio, zero gross losses kill profitFactor, zero max loss
kills maxGainLossRatio, and a zero total investment kills
totalProfitLossPercent — each resolves to 0 instead of failing. -/
theorem c3_division_guards (trades : List Trade) :
    ((calculateTradeStats trades).averageLossPercent = 0 →
      (calculateTradeStats trades).winLossRatio = 0) ∧
    ((calculateTradeStats trades).averageLossPercent = 0 ∨
        (calculateTradeStats trades).battingAverage = 100 →
      (calculateTradeStats trades).adjustedWinLossRatio = 0) ∧
    (|((trades.filter (fun t => decide (t.profitLossPercent < 0))).map
        (fun t => t.profitLossAmount)).sum| = 0 →
      (calculateTradeStats trades).profitFactor = 0) ∧
    ((calculateTradeStats trades).maxLossPercent = 0 →
      (calculateTradeStats trades).maxGainLossRatio = 0) ∧
    (((trades.map (fun t => t.entryPrice * t.shares)).sum = 0 →
      (calculateTradeStats trades).totalProfitLossPercent = 0)) := by
  have hgl : grossLossesOf trades =
      |((trades.filter (fun t => decide (t.profitLossPercent < 0))).map
        (fun t => t.profitLossAmount)).sum| := by
    rw [grossLossesOf, sumBy_eq_sum, losersOf]
  have hti : totalInvestedOf trades =
      (trades.map (fun t => t.entryPrice * t.shares)).sum := by
    rw [totalInvestedOf, sumBy_eq_sum]
  unfold calculateTradeStats
  split
  next hlen =>
    exact ⟨fun _ => rfl, fun _ => rfl, fun _ => rfl, fun _ => rfl, fun _ => rfl⟩
  next hlen =>
    refine ⟨fun h => ?_, fun h => ?_, fun h => ?_, fun h => ?_, fun h => ?_⟩
    · show winLossRatioOf trades = 0
      rw [winLossRatioOf, if_neg (fun hne => hne h)]
    · show adjustedWinLossRatioOf trades = 0
      rcases h with h | h
      · rw [adjustedWinLossRatioOf, if_neg (fun hand => hand.1 h)]
      · have h2 : battingAverageOf trades = 100 := h
        rw [adjustedWinLossRatioOf,
          if_neg (fun hand => absurd (h2 ▸ hand.2) (lt_irrefl 100))]
    · show profitFactorOf trades = 0
      rw [profitFactorOf, if_neg (fun hne => hne (hgl.trans h))]
    · show maxGainLossRatioOf trades = 0
      rw [maxGainLossRatioOf, if_neg (fun hne => hne h)]
    · show totalProfitLossPercentOf trades = 0
      rw [totalProfitLossPercentOf, if_neg (fun hne => hne (hti.trans h))]

/-- A concrete break-even trade exercising every zero-denominator guard at
once. -/
def c3Trade : Trade where
  profitLossAmount := 0
  profitLossPercent := 0
  rRatio := none
  daysHeld := none
  entryPrice := 0
  shares := 0
  status := TradeStatus.stClosed
  normalizedMetrics := none
  normalizationFactor := none
  positionSize := 0

/-- Witness for C3: on the singleton break-even trade every guarded
denominator is 0 and every guarded ratio resolves to 0. -/
theorem c3_division_guards_witness :
    (calculateTradeStats [c3Trade]).winLossRatio = 0 ∧
    (calculateTradeStats [c3Trade]).adjustedWinLossRatio = 0 ∧
    (calculateTradeStats [c3Trade]).profitFactor = 0 ∧
    (calculateTradeStats [c3Trade]).maxGainLossRatio = 0 ∧
    (calculateTradeStats [c3Trade]).totalProfitLossPercent = 0 := by
  obtain ⟨h1, h2, h3, h4, h5⟩ := c3_division_guards [c3Trade]
  refine ⟨h1 ?_, h2 (Or.inl ?_), h3 ?_, h4 ?_, h5 ?_⟩
  · norm_num [calculateTradeStats, averageLossPercentOf, losersOf, c3Trade]
  · norm_num [calculateTradeStats, averageLossPercentOf, losersOf, c3Trade]
  · norm_num [c3Trade]
  · norm_num [calculateTradeStats, maxLossPercentOf, losersOf, listMin, c3Trade]
  · norm_num [c3Trade]

/-! Permutation invariance machinery for the aggregator (claim C8). -/

theorem foldl_min_le_iff {α : Type} [LinearOrder α] (l : List α) :
    ∀ (b c : α), c ≤ l.foldl min b ↔ c ≤ b ∧ ∀ d ∈ l, c ≤ d := by
  induction l with
  | nil => intro b c; simp
  | cons x xs ih =>
    intro b c
    simp only [List.foldl_cons, ih, le_min_iff, List.mem_cons]
    constructor
    · rintro ⟨⟨hb, hx⟩, hall⟩
      exact ⟨hb, fun d hd => hd.elim (fun h => h ▸ hx) (hall d)⟩
    · rintro ⟨hb, hall⟩
      exact ⟨⟨hb, hall x (Or.inl rfl)⟩, fun d hd => hall d (Or.inr hd)⟩

theorem foldl_min_mem {α : Type} [LinearOrder α] (l : List α) :
    ∀ b : α, l.foldl min b = b ∨ l.foldl min b ∈ l := by
  induction l with
  | nil => intro b; exact Or.inl rfl
  | cons x xs ih =>
    intro b
    rcases ih (min b x) with h | h
    · rcases min_cases b x with ⟨he, _⟩ | ⟨he, _⟩
      · exact Or.inl (by rw [List.foldl_cons, h, he])
      · exact Or.inr (by rw [List.foldl_cons, h, he]; exact List.mem_cons_self x xs)
    · exact Or.inr (List.mem_cons_of_mem x h)

/-- listMax of a nonempty list is a member and an upper bound. -/
theorem listMax_spec {l : List ℚ} (h : l ≠ []) :
    listMax l ∈ l ∧ ∀ d ∈ l, d ≤ listMax l := by
  rcases l with _ | ⟨x, xs⟩
  · exact absurd rfl h
  · constructor
    · show xs.foldl max x ∈ x :: xs
      rcases foldl_max_mem xs x with h0 | h0
      · rw [h0]; exact List.mem_cons_self x xs
      · exact List.mem_cons_of_mem x h0
    · intro d hd
      have hle := (foldl_max_le_iff xs x (xs.foldl max x)).mp (le_refl _)
      rcases List.mem_cons.mp hd with h1 | h1
      · exact h1 ▸ hle.1
      · exact hle.2 d h1

/-- listMin of a nonempty list is a member and a lower bound. -/
theorem listMin_spec {l : List ℚ} (h : l ≠ []) :
    listMin l ∈ l ∧ ∀ d ∈ l, listMin l ≤ d := by
  rcases l with _ | ⟨x, xs⟩
  · exact absurd rfl h
  · constructor
    · show xs.foldl min x ∈ x :: xs
      rcases foldl_min_mem xs x with h0 | h0
      · rw [h0]; exact List.mem_cons_self x xs
      · exact List.mem_cons_of_mem x h0
    · intro d hd
      have hle := (foldl_min_le_iff xs x (xs.foldl min x)).mp (le_refl _)
      rcases List.mem_cons.mp hd with h1 | h1
      · exact h1 ▸ hle.1
      · exact hle.2 d h1

theorem listMax_perm {l₁ l₂ : List ℚ} (h : l₁.Perm l₂) :
    listMax l₁ = listMax l₂ := by
  rcases l₁ with _ | ⟨x, xs⟩
  · rw [List.Perm.eq_nil h.symm]
  · rcases l₂ with _ | ⟨y, ys⟩
    · exact absurd (List.Perm.eq_nil h) (by simp)
    · have s₁ := listMax_spec (l := x :: xs) (by simp)
      have s₂ := listMax_spec (l := y :: ys) (by simp)
      exact le_antisymm (s₂.2 _ (h.subset s₁.1)) (s₁.2 _ (h.symm.subset s₂.1))

theorem listMin_perm {l₁ l₂ : List ℚ} (h : l₁.Perm l₂) :
    listMin l₁ = listMin l₂ := by
  rcases l₁ with _ | ⟨x, xs⟩
  · rw [List.Perm.eq_nil h.symm]
  · rcases l₂ with _ | ⟨y, ys⟩
    · exact absurd (List.Perm.eq_nil h) (by simp)
    · have s₁ := listMin_spec (l := x :: xs) (by simp)
      have s₂ := listMin_spec (l := y :: ys) (by simp)
      exact le_antisymm (s₁.2 _ (h.symm.subset s₂.1)) (s₂.2 _ (h.subset s₁.1))

/-- foldl with a right-commutative step is permutation invariant. -/
theorem foldl_comm_perm {α β : Type} (f : β → α → β)
    (hf : ∀ b x y, f (f b x) y = f (f b y) x) :
    ∀ {l₁ l₂ : List α}, l₁.Perm l₂ → ∀ b, l₁.foldl f b = l₂.foldl f b := by
  intro l₁ l₂ h
  induction h with
  | nil => intro b; rfl
  | cons x _ ih => intro b; simp only [List.foldl_cons]; exact ih _
  | swap x y l => intro b; simp only [List.foldl_cons]; rw [hf]
  | trans _ _ ih₁ ih₂ => intro b; rw [ih₁, ih₂]

theorem sumBy_perm {α : Type} (f : α → ℚ) {l₁ l₂ : List α} (h : l₁.Perm l₂) :
    sumBy f l₁ = sumBy f l₂ := by
  rw [sumBy_eq_sum, sumBy_eq_sum]
  exact (h.map f).sum_eq

theorem foldl_keepGreater_eq_max {α : Type} (f : α → ℚ) (l : List α) :
    ∀ b : ℚ,
      l.foldl (fun acc t => if f t > acc then f t else acc) b =
        (l.map f).foldl max b := by
  induction l with
  | nil => intro b; rfl
  | cons x xs ih =>
    intro b
    simp only [List.foldl_cons, List.map_cons]
    rw [ih]
    congr 1
    rcases lt_or_ge b (f x) with h | h
    · rw [if_pos h, max_eq_right (le_of_lt h)]
    · rw [if_neg (not_lt.mpr h), max_eq_left h]

theorem foldl_keepLess_eq_min {α : Type} (f : α → ℚ) (l : List α) :
    ∀ b : ℚ,
      l.foldl (fun acc t => if f t < acc then f t else acc) b =
        (l.map f).foldl min b := by
  induction l with
  | nil => intro b; rfl
  | cons x xs ih =>
    intro b
    simp only [List.foldl_cons, List.map_cons]
    rw [ih]
    congr 1
    rcases lt_or_ge (f x) b with h | h
    · rw [if_pos h, min_eq_right (le_of_lt h)]
    · rw [if_neg (not_lt.mpr h), min_eq_left h]

theorem foldl_condAdd_eq {α : Type} (p : α → Prop) [DecidablePred p] (g : α → ℚ)
    (l : List α) :
    ∀ c : ℚ,
      l.foldl (fun s t => if p t then s + g t else s) c =
        c + ((l.filter (fun t => decide (p t))).map g).sum := by
  induction l with
  | nil => intro c; simp
  | cons x xs ih =>
    intro c
    by_cases hpx : p x
    · simp [hpx, List.filter_cons, ih, add_assoc]
    · simp [hpx, List.filter_cons, ih]

/-- The estimated normalized investment as a filtered sum: trades whose
effective factor (normalizationFactor || 1) is positive contribute
positionSize / factor. -/
theorem normalizedInvestmentOf_eq (trades : List Trade) :
    normalizedInvestmentOf trades =
      (((normalizedTradesOf trades).filter
          (fun t => decide (jsOrQ t.normalizationFactor 1 > 0))).map
        (fun t => t.positionSize / jsOrQ t.normalizationFactor 1)).sum := by
  show (normalizedTradesOf trades).foldl
      (fun s t => if jsOrQ t.normalizationFactor 1 > 0 then
        s + t.positionSize / jsOrQ t.normalizationFactor 1 else s) 0 = _
  rw [foldl_condAdd_eq, zero_add]

theorem winnersOf_perm {l₁ l₂ : List Trade} (h : l₁.Perm l₂) :
    (winnersOf l₁).Perm (winnersOf l₂) := h.filter _

theorem losersOf_perm {l₁ l₂ : List Trade} (h : l₁.Perm l₂) :
    (losersOf l₁).Perm (losersOf l₂) := h.filter _

theorem breakEvenOf_perm {l₁ l₂ : List Trade} (h : l₁.Perm l₂) :
    (breakEvenOf l₁).Perm (breakEvenOf l₂) := h.filter _

theorem normalizedTradesOf_perm {l₁ l₂ : List Trade} (h : l₁.Perm l₂) :
    (normalizedTradesOf l₁).Perm (normalizedTradesOf l₂) := h.filter _

theorem normalizedWinnersOf_perm {l₁ l₂ : List Trade} (h : l₁.Perm l₂) :
    (normalizedWinnersOf l₁).Perm (normalizedWinnersOf l₂) :=
  (normalizedTradesOf_perm h).filter _

theorem normalizedLosersOf_perm {l₁ l₂ : List Trade} (h : l₁.Perm l₂) :
    (normalizedLosersOf l₁).Perm (normalizedLosersOf l₂) :=
  (normalizedTradesOf_perm h).filter _

theorem battingAverageOf_perm {l₁ l₂ : List Trade} (h : l₁.Perm l₂) :
    battingAverageOf l₁ = battingAverageOf l₂ := by
  unfold battingAverageOf
  rw [(winnersOf_perm h).length_eq, h.length_eq]

theorem averageWinPercentOf_perm {l₁ l₂ : List Trade} (h : l₁.Perm l₂) :
    averageWinPercentOf l₁ = averageWinPercentOf l₂ := by
  unfold averageWinPercentOf
  rw [(winnersOf_perm h).length_eq, sumBy_perm _ (winnersOf_perm h)]

theorem averageLossPercentOf_perm {l₁ l₂ : List Trade} (h : l₁.Perm l₂) :
    averageLossPercentOf l₁ = averageLossPercentOf l₂ := by
  unfold averageLossPercentOf
  rw [(losersOf_perm h).length_eq, sumBy_perm _ (losersOf_perm h)]

theorem winLossRatioOf_perm {l₁ l₂ : List Trade} (h : l₁.Perm l₂) :
    winLossRatioOf l₁ = winLossRatioOf l₂ := by
  unfold winLossRatioOf
  rw [averageWinPercentOf_perm h, averageLossPercentOf_perm h]

theorem adjustedWinLossRatioOf_perm {l₁ l₂ : List Trade} (h : l₁.Perm l₂) :
    adjustedWinLossRatioOf l₁ = adjustedWinLossRatioOf l₂ := by
  unfold adjustedWinLossRatioOf
  rw [averageWinPercentOf_perm h, averageLossPercentOf_perm h, battingAverageOf_perm h]

theorem averageRRatioOf_perm {l₁ l₂ : List Trade} (h : l₁.Perm l₂) :
    averageRRatioOf l₁ = averageRRatioOf l₂ := by
  unfold averageRRatioOf
  rw [sumBy_perm _ h, h.length_eq]

theorem grossWinsOf_perm {l₁ l₂ : List Trade} (h : l₁.Perm l₂) :
    grossWinsOf l₁ = grossWinsOf l₂ := by
  unfold grossWinsOf
  rw [sumBy_perm _ (winnersOf_perm h)]

theorem grossLossesOf_perm {l₁ l₂ : List Trade} (h : l₁.Perm l₂) :
    grossLossesOf l₁ = grossLossesOf l₂ := by
  unfold grossLossesOf
  rw [sumBy_perm _ (losersOf_perm h)]

theorem profitFactorOf_perm {l₁ l₂ : List Trade} (h : l₁.Perm l₂) :
    profitFactorOf l₁ = profitFactorOf l₂ := by
  unfold profitFactorOf
  rw [grossWinsOf_perm h, grossLossesOf_perm h]

theorem expectancyOf_perm {l₁ l₂ : List Trade} (h : l₁.Perm l₂) :
    expectancyOf l₁ = expectancyOf l₂ := by
  unfold expectancyOf
  rw [averageWinPercentOf_perm h, averageLossPercentOf_perm h, battingAverageOf_perm h]

theorem averageDaysHeldWinnersOf_perm {l₁ l₂ : List Trade} (h : l₁.Perm l₂) :
    averageDaysHeldWinnersOf l₁ = averageDaysHeldWinnersOf l₂ := by
  unfold averageDaysHeldWinnersOf
  rw [(winnersOf_perm h).length_eq, sumBy_perm _ (winnersOf_perm h)]

theorem averageDaysHeldLosersOf_perm {l₁ l₂ : List Trade} (h : l₁.Perm l₂) :
    averageDaysHeldLosersOf l₁ = averageDaysHeldLosersOf l₂ := by
  unfold averageDaysHeldLosersOf
  rw [(losersOf_perm h).length_eq, sumBy_perm _ (losersOf_perm h)]

theorem maxGainPercentOf_perm {l₁ l₂ : List Trade} (h : l₁.Perm l₂) :
    maxGainPercentOf l₁ = maxGainPercentOf l₂ := by
  unfold maxGainPercentOf
  exact listMax_perm ((winnersOf_perm h).map _)

theorem maxLossPercentOf_perm {l₁ l₂ : List Trade} (h : l₁.Perm l₂) :
    maxLossPercentOf l₁ = maxLossPercentOf l₂ := by
  unfold maxLossPercentOf
  exact listMin_perm ((losersOf_perm h).map _)

theorem maxGainLossRatioOf_perm {l₁ l₂ : List Trade} (h : l₁.Perm l₂) :
    maxGainLossRatioOf l₁ = maxGainLossRatioOf l₂ := by
  unfold maxGainLossRatioOf
  rw [maxGainPercentOf_perm h, maxLossPercentOf_perm h]

theorem totalProfitLossOf_perm {l₁ l₂ : List Trade} (h : l₁.Perm l₂) :
    totalProfitLossOf l₁ = totalProfitLossOf l₂ := sumBy_perm _ h

theorem totalInvestedOf_perm {l₁ l₂ : List Trade} (h : l₁.Perm l₂) :
    totalInvestedOf l₁ = totalInvestedOf l₂ := sumBy_perm _ h

theorem totalProfitLossPercentOf_perm {l₁ l₂ : List Trade} (h : l₁.Perm l₂) :
    totalProfitLossPercentOf l₁ = totalProfitLossPercentOf l₂ := by
  unfold totalProfitLossPercentOf
  rw [totalProfitLossOf_perm h, totalInvestedOf_perm h]

theorem normTotalProfitLossOf_perm {l₁ l₂ : List Trade} (h : l₁.Perm l₂) :
    normTotalProfitLossOf l₁ = normTotalProfitLossOf l₂ :=
  sumBy_perm _ (normalizedTradesOf_perm h)

theorem normalizedInvestmentOf_perm {l₁ l₂ : List Trade} (h : l₁.Perm l₂) :
    normalizedInvestmentOf l₁ = normalizedInvestmentOf l₂ := by
  rw [normalizedInvestmentOf_eq, normalizedInvestmentOf_eq]
  exact (((normalizedTradesOf_perm h).filter _).map _).sum_eq

theorem normTotalProfitLossPercentOf_perm {l₁ l₂ : List Trade} (h : l₁.Perm l₂) :
    normTotalProfitLossPercentOf l₁ = normTotalProfitLossPercentOf l₂ := by
  unfold normTotalProfitLossPercentOf
  rw [normTotalProfitLossOf_perm h, normalizedInvestmentOf_perm h]

theorem normMaxGainPercentOf_perm {l₁ l₂ : List Trade} (h : l₁.Perm l₂) :
    normMaxGainPercentOf l₁ = normMaxGainPercentOf l₂ := by
  unfold normMaxGainPercentOf
  rw [foldl_keepGreater_eq_max, foldl_keepGreater_eq_max]
  exact foldl_comm_perm max
    (fun b x y => by rw [max_assoc, max_comm x y, ← max_assoc])
    ((normalizedWinnersOf_perm h).map _) 0

theorem normAverageWinPercentOf_perm {l₁ l₂ : List Trade} (h : l₁.Perm l₂) :
    normAverageWinPercentOf l₁ = normAverageWinPercentOf l₂ := by
  unfold normAverageWinPercentOf
  rw [(normalizedWinnersOf_perm h).length_eq, sumBy_perm _ (normalizedWinnersOf_perm h)]

theorem normMaxLossPercentOf_perm {l₁ l₂ : List Trade} (h : l₁.Perm l₂) :
    normMaxLossPercentOf l₁ = normMaxLossPercentOf l₂ := by
  unfold normMaxLossPercentOf
  rw [foldl_keepLess_eq_min, foldl_keepLess_eq_min]
  exact foldl_comm_perm min
    (fun b x y => by rw [min_assoc, min_comm x y, ← min_assoc])
    ((normalizedLosersOf_perm h).map _) 0

theorem normAverageLossPercentOf_perm {l₁ l₂ : List Trade} (h : l₁.Perm l₂) :
    normAverageLossPercentOf l₁ = normAverageLossPercentOf l₂ := by
  unfold normAverageLossPercentOf
  rw [(normalizedLosersOf_perm h).length_eq, sumBy_perm _ (normalizedLosersOf_perm h)]

theorem normWinLossRatioOf_perm {l₁ l₂ : List Trade} (h : l₁.Perm l₂) :
    normWinLossRatioOf l₁ = normWinLossRatioOf l₂ := by
  unfold normWinLossRatioOf
  rw [normAverageWinPercentOf_perm h, normAverageLossPercentOf_perm h]

theorem normAdjustedWinLossRatioOf_perm {l₁ l₂ : List Trade} (h : l₁.Perm l₂) :
    normAdjustedWinLossRatioOf l₁ = normAdjustedWinLossRatioOf l₂ := by
  unfold normAdjustedWinLossRatioOf
  rw [normAverageWinPercentOf_perm h, normAverageLossPercentOf_perm h,
    battingAverageOf_perm h]

theorem normMaxGainLossRatioOf_perm {l₁ l₂ : List Trade} (h : l₁.Perm l₂) :
    normMaxGainLossRatioOf l₁ = normMaxGainLossRatioOf l₂ := by
  unfold normMaxGainLossRatioOf
  rw [normMaxGainPercentOf_perm h, normMaxLossPercentOf_perm h]

theorem normAverageRRatioOf_perm {l₁ l₂ : List Trade} (h : l₁.Perm l₂) :
    normAverageRRatioOf l₁ = normAverageRRatioOf l₂ := by
  unfold normAverageRRatioOf
  rw [(normalizedTradesOf_perm h).length_eq, sumBy_perm _ (normalizedTradesOf_perm h)]

theorem normGrossWinsOf_perm {l₁ l₂ : List Trade} (h : l₁.Perm l₂) :
    normGrossWinsOf l₁ = normGrossWinsOf l₂ :=
  sumBy_perm _ (normalizedWinnersOf_perm h)

theorem normGrossLossesOf_perm {l₁ l₂ : List Trade} (h : l₁.Perm l₂) :
    normGrossLossesOf l₁ = normGrossLossesOf l₂ := by
  unfold normGrossLossesOf
  rw [sumBy_perm _ (normalizedLosersOf_perm h)]

theorem normProfitFactorOf_perm {l₁ l₂ : List Trade} (h : l₁.Perm l₂) :
    normProfitFactorOf l₁ = normProfitFactorOf l₂ := by
  unfold normProfitFactorOf
  rw [normGrossWinsOf_perm h, normGrossLossesOf_perm h]

theorem normExpectancyOf_perm {l₁ l₂ : List Trade} (h : l₁.Perm l₂) :
    normExpectancyOf l₁ = normExpectancyOf l₂ := by
  unfold normExpectancyOf
  rw [normAverageWinPercentOf_perm h, normAverageLossPercentOf_perm h,
    battingAverageOf_perm h]

/-- C8: the aggregator is order independent: permuting the input trade list
leaves every field of the snapshot unchanged. -/
theorem c8_order_independent {l₁ l₂ : List Trade} (h : l₁.Perm l₂) :
    calculateTradeStats l₁ = calculateTradeStats l₂ := by
  by_cases hc : l₂.length = 0
  · have hc1 : l₁.length = 0 := by rw [h.length_eq]; exact hc
    have e1 : l₁ = [] := List.length_eq_zero.mp hc1
    have e2 : l₂ = [] := List.length_eq_zero.mp hc
    rw [e1, e2]
  · have hc1 : ¬l₁.length = 0 := by rw [h.length_eq]; exact hc
    unfold calculateTradeStats
    rw [if_neg hc, if_neg hc1]
    simp only [TradeStats.mk.injEq, NormalizedStats.mk.injEq]
    exact ⟨h.length_eq, (winnersOf_perm h).length_eq, (losersOf_perm h).length_eq,
      (breakEvenOf_perm h).length_eq, battingAverageOf_perm h,
      averageWinPercentOf_perm h, averageLossPercentOf_perm h,
      winLossRatioOf_perm h, adjustedWinLossRatioOf_perm h,
      averageRRatioOf_perm h, profitFactorOf_perm h, expectancyOf_perm h,
      averageDaysHeldWinnersOf_perm h, averageDaysHeldLosersOf_perm h,
      maxGainPercentOf_perm h, maxLossPercentOf_perm h, maxGainLossRatioOf_perm h,
      totalProfitLossOf_perm h, totalProfitLossPercentOf_perm h,
      (h.filter _).length_eq, (h.filter _).length_eq,
      normTotalProfitLossOf_perm h, normTotalProfitLossPercentOf_perm h,
      normAverageRRatioOf_perm h, normProfitFactorOf_perm h,
      normMaxGainPercentOf_perm h, normMaxLossPercentOf_perm h,
      normMaxGainLossRatioOf_perm h, normAverageWinPercentOf_perm h,
      normAverageLossPercentOf_perm h, normWinLossRatioOf_perm h,
      normAdjustedWinLossRatioOf_perm h, normExpectancyOf_perm h⟩

/-- A concrete winning trade with normalized metrics. -/
def c8TradeA : Trade where
  profitLossAmount := 100
  profitLossPercent := 10
  rRatio := some 2
  daysHeld := some 3
  entryPrice := 100
  shares := 10
  status := TradeStatus.stClosed
  normalizedMetrics := some ⟨100, 10, some 2⟩
  normalizationFactor := some 1
  positionSize := 1000

/-- A concrete losing trade without normalized metrics. -/
def c8TradeB : Trade where
  profitLossAmount := -50
  profitLossPercent := -5
  rRatio := some (-1)
  daysHeld := some 2
  entryPrice := 100
  shares := 10
  status := TradeStatus.stPart
  normalizedMetrics := none
  normalizationFactor := none
  positionSize := 1000

/-- Witness for C8: swapping two concrete trades leaves the snapshot
unchanged. -/
theorem c8_order_independent_witness :
    calculateTradeStats [c8TradeA, c8TradeB] =
      calculateTradeStats [c8TradeB, c8TradeA] :=
  c8_order_independent (List.Perm.swap c8TradeB c8TradeA [])

/-- The estimated normalized investment as claim C2 words it: the sum of
positionSize / normalizationFactor over the normalized trades that carry a
normalization factor. -/
def claimNormalizedInvestment (trades : List Trade) : ℚ :=
  (((normalizedTradesOf trades).filter (fun t => t.normalizationFactor.isSome)).map
    (fun t => t.positionSize / t.normalizationFactor.getD 1)).sum

/-- Normalized winner carrying normalizedMetrics but no normalization
factor. -/
def c2TradeA : Trade where
  profitLossAmount := 10
  profitLossPercent := 10
  rRatio := none
  daysHeld := none
  entryPrice := 10
  shares := 10
  status := TradeStatus.stClosed
  normalizedMetrics := some ⟨10, 10, none⟩
  normalizationFactor := none
  positionSize := 100

/-- Raw loser lacking normalizedMetrics. -/
def c2TradeB : Trade where
  profitLossAmount := -5
  profitLossPercent := -5
  rRatio := none
  daysHeld := none
  entryPrice := 10
  shares := 10
  status := TradeStatus.stClosed
  normalizedMetrics := none
  normalizationFactor := some 1
  positionSize := 100

/-- C2 counterexample: (a) the normalized totalProfitLossPercent does not
use the claimed investment (sum over trades carrying a factor): the trade
with no factor still contributes its full positionSize, giving 10 instead
of the claimed 0; (b) the normalized sub-section is not computed only over
trades carrying normalizedMetrics: dropping the non-normalized loser
changes the normalized expectancy (5 versus 10) because the raw batting
average feeds it. -/
theorem c2_counterexample :
    ((calculateTradeStats [c2TradeA, c2TradeB]).normalized.totalProfitLossPercent ≠
      (if claimNormalizedInvestment [c2TradeA, c2TradeB] = 0 then 0
       else normTotalProfitLossOf [c2TradeA, c2TradeB] /
         claimNormalizedInvestment [c2TradeA, c2TradeB] * 100)) ∧
    (calculateTradeStats [c2TradeA, c2TradeB]).normalized ≠
      (calculateTradeStats
        ([c2TradeA, c2TradeB].filter (fun t => t.normalizedMetrics.isSome))).normalized := by
  have hf : [c2TradeA, c2TradeB].filter (fun t => t.normalizedMetrics.isSome) =
      [c2TradeA] := by
    simp [c2TradeA, c2TradeB, List.filter_cons]
  have e1 : (calculateTradeStats [c2TradeA, c2TradeB]).normalized.expectancy = 5 := by
    norm_num [calculateTradeStats, normExpectancyOf, battingAverageOf, winnersOf,
      normAverageWinPercentOf, normAverageLossPercentOf, normalizedWinnersOf,
      normalizedLosersOf, normalizedTradesOf, nmPLPercent, sumBy,
      c2TradeA, c2TradeB, List.filter_cons]
  have e2 : (calculateTradeStats [c2TradeA]).normalized.expectancy = 10 := by
    norm_num [calculateTradeStats, normExpectancyOf, battingAverageOf, winnersOf,
      normAverageWinPercentOf, normAverageLossPercentOf, normalizedWinnersOf,
      normalizedLosersOf, normalizedTradesOf, nmPLPercent, sumBy,
      c2TradeA, List.filter_cons]
  constructor
  · have e3 : (calculateTradeStats [c2TradeA, c2TradeB]).normalized.totalProfitLossPercent
        = 10 := by
      norm_num [calculateTradeStats, normTotalProfitLossPercentOf,
        normTotalProfitLossOf, normalizedInvestmentOf, normalizedTradesOf,
        nmPLAmount, jsOrQ, sumBy, c2TradeA, c2TradeB, List.filter_cons]
    have e4 : claimNormalizedInvestment [c2TradeA, c2TradeB] = 0 := by
      norm_num [claimNormalizedInvestment, normalizedTradesOf,
        c2TradeA, c2TradeB, List.filter_cons]
    rw [e3, e4, if_pos rfl]
    norm_num
  · rw [hf]
    intro heq
    have h510 : (5 : ℚ) = 10 := by rw [← e1, heq, e2]
    norm_num at h510

/-- Spec-side mean: 0 for an empty list. -/
def specMean (l : List ℚ) : ℚ :=
  if l.length = 0 then 0 else l.sum / (l.length : ℚ)

theorem ite_ne_zero_flip {c a : ℚ} :
    (if c ≠ 0 then a else 0) = (if c = 0 then 0 else a) := by
  by_cases h : c = 0
  · simp [h]
  · simp [h]

/-- The empty-set early return of calculateTradeStats coincides with the
general record: every per-field definition evaluates to the zero
initializer on the empty list, so the aggregator equals the field record
unconditionally. -/
theorem calculateTradeStats_eq_record (trades : List Trade) :
    calculateTradeStats trades =
      { totalTrades := trades.length
        winningTrades := (winnersOf trades).length
        losingTrades := (losersOf trades).length
        breakEvenTrades := (breakEvenOf trades).length
        battingAverage := battingAverageOf trades
        averageWinPercent := averageWinPercentOf trades
        averageLossPercent := averageLossPercentOf trades
        winLossRatio := winLossRatioOf trades
        adjustedWinLossRatio := adjustedWinLossRatioOf trades
        averageRRatio := averageRRatioOf trades
        profitFactor := profitFactorOf trades
        expectancy := expectancyOf trades
        averageDaysHeldWinners := averageDaysHeldWinnersOf trades
        averageDaysHeldLosers := averageDaysHeldLosersOf trades
        maxGainPercent := maxGainPercentOf trades
        maxLossPercent := maxLossPercentOf trades
        maxGainLossRatio := maxGainLossRatioOf trades
        totalProfitLoss := totalProfitLossOf trades
        totalProfitLossPercent := totalProfitLossPercentOf trades
        statusCountClosed :=
          (trades.filter (fun t => decide (t.status = TradeStatus.stClosed))).length
        statusCountPart :=
          (trades.filter (fun t => decide (t.status = TradeStatus.stPart))).length
        normalized :=
          { totalProfitLoss := normTotalProfitLossOf trades
            totalProfitLossPercent := normTotalProfitLossPercentOf trades
            averageRRatio := normAverageRRatioOf trades
            profitFactor := normProfitFactorOf trades
            maxGainPercent := normMaxGainPercentOf trades
            maxLossPercent := normMaxLossPercentOf trades
            maxGainLossRatio := normMaxGainLossRatioOf trades
            averageWinPercent := normAverageWinPercentOf trades
            averageLossPercent := normAverageLossPercentOf trades
            winLossRatio := normWinLossRatioOf trades
            adjustedWinLossRatio := normAdjustedWinLossRatioOf trades
            expectancy := normExpectancyOf trades } } := by
  unfold calculateTradeStats
  split
  next hlen =>
    have he : trades = [] := List.length_eq_zero.mp hlen
    subst he
    simp only [initialTradeStats, TradeStats.mk.injEq, NormalizedStats.mk.injEq]
    norm_num [battingAverageOf, averageWinPercentOf, averageLossPercentOf,
      winLossRatioOf, adjustedWinLossRatioOf, averageRRatioOf, profitFactorOf,
      grossWinsOf, grossLossesOf, expectancyOf, averageDaysHeldWinnersOf,
      averageDaysHeldLosersOf, maxGainPercentOf, maxLossPercentOf,
      maxGainLossRatioOf, totalProfitLossOf, totalInvestedOf,
      totalProfitLossPercentOf, winnersOf, losersOf, breakEvenOf,
      normalizedTradesOf, normalizedWinnersOf, normalizedLosersOf,
      normTotalProfitLossOf, normalizedInvestmentOf,
      normTotalProfitLossPercentOf, normMaxGainPercentOf,
      normAverageWinPercentOf, normMaxLossPercentOf, normAverageLossPercentOf,
      normWinLossRatioOf, normAdjustedWinLossRatioOf, normMaxGainLossRatioOf,
      normAverageRRatioOf, normGrossWinsOf, normGrossLossesOf,
      normProfitFactorOf, normExpectancyOf, sumBy, listMax, listMin]
  next hlen => rfl

/-- C2 amended: the normalized sub-section draws its per-trade inputs from
the normalizedMetrics of the trades that carry one and mirrors the raw
formulas, with two corrections forced by the code: the estimated normalized
investment sums positionSize / (normalizationFactor || 1) over the
normalized trades whose effective factor is positive — a normalized trade
without a factor contributes its full positionSize — and the normalized
adjustedWinLossRatio and expectancy reuse the batting average of the whole
trade set, so trades lacking normalizedMetrics still influence them. -/
theorem c2_normalized_mirrors (trades : List Trade) :
    (calculateTradeStats trades).normalized.totalProfitLoss =
      ((normalizedTradesOf trades).map nmPLAmount).sum ∧
    (calculateTradeStats trades).normalized.totalProfitLossPercent =
      (if normalizedInvestmentOf trades = 0 then 0
       else ((normalizedTradesOf trades).map nmPLAmount).sum /
         normalizedInvestmentOf trades * 100) ∧
    normalizedInvestmentOf trades =
      (((normalizedTradesOf trades).filter
          (fun t => decide (jsOrQ t.normalizationFactor 1 > 0))).map
        (fun t => t.positionSize / jsOrQ t.normalizationFactor 1)).sum ∧
    (calculateTradeStats trades).normalized.averageWinPercent =
      specMean ((normalizedWinnersOf trades).map nmPLPercent) ∧
    (calculateTradeStats trades).normalized.averageLossPercent =
      specMean ((normalizedLosersOf trades).map nmPLPercent) ∧
    (calculateTradeStats trades).normalized.maxGainPercent =
      ((normalizedWinnersOf trades).map nmPLPercent).foldl max 0 ∧
    (calculateTradeStats trades).normalized.maxLossPercent =
      ((normalizedLosersOf trades).map nmPLPercent).foldl min 0 ∧
    (calculateTradeStats trades).normalized.averageRRatio =
      specMean ((normalizedTradesOf trades).map (fun t => jsOrQ (nmRRatio t) 0)) ∧
    (calculateTradeStats trades).normalized.profitFactor =
      (if |((normalizedLosersOf trades).map nmPLAmount).sum| = 0 then 0
       else ((normalizedWinnersOf trades).map nmPLAmount).sum /
         |((normalizedLosersOf trades).map nmPLAmount).sum|) ∧
    (calculateTradeStats trades).normalized.winLossRatio =
      (if (calculateTradeStats trades).normalized.averageLossPercent = 0 then 0
       else |(calculateTradeStats trades).normalized.averageWinPercent /
         (calculateTradeStats trades).normalized.averageLossPercent|) ∧
    (calculateTradeStats trades).normalized.adjustedWinLossRatio =
      (if (calculateTradeStats trades).normalized.averageLossPercent ≠ 0 ∧
          (calculateTradeStats trades).battingAverage < 100 then
        (calculateTradeStats trades).battingAverage / 100 *
          (calculateTradeStats trades).normalized.averageWinPercent /
          ((1 - (calculateTradeStats trades).battingAverage / 100) *
            |(calculateTradeStats trades).normalized.averageLossPercent|)
       else 0) ∧
    (calculateTradeStats trades).normalized.maxGainLossRatio =
      (if (calculateTradeStats trades).normalized.maxLossPercent = 0 then 0
       else |(calculateTradeStats trades).normalized.maxGainPercent /
         (calculateTradeStats trades).normalized.maxLossPercent|) ∧
    (calculateTradeStats trades).normalized.expectancy =
      (calculateTradeStats trades).battingAverage / 100 *
        (calculateTradeStats trades).normalized.averageWinPercent +
        (1 - (calculateTradeStats trades).battingAverage / 100) *
          (calculateTradeStats trades).normalized.averageLossPercent := by
  rw [calculateTradeStats_eq_record trades]
  dsimp only
  refine ⟨?_, ?_, normalizedInvestmentOf_eq trades, ?_, ?_, ?_, ?_, ?_, ?_, ?_, ?_, ?_, ?_⟩
  · rw [normTotalProfitLossOf, sumBy_eq_sum]
  · rw [normTotalProfitLossPercentOf, normTotalProfitLossOf, sumBy_eq_sum,
      ite_ne_zero_flip]
  · rw [normAverageWinPercentOf, specMean, List.length_map, ← sumBy_eq_sum]
  · rw [normAverageLossPercentOf, specMean, List.length_map, ← sumBy_eq_sum]
  · rw [normMaxGainPercentOf]
    exact foldl_keepGreater_eq_max nmPLPercent _ 0
  · rw [normMaxLossPercentOf]
    exact foldl_keepLess_eq_min nmPLPercent _ 0
  · by_cases h : (normalizedTradesOf trades).length = 0
    · have he := List.length_eq_zero.mp h
      rw [normAverageRRatioOf, he]
      simp [specMean, sumBy]
    · rw [normAverageRRatioOf, specMean,
        if_neg (by rw [List.length_map]; exact h), List.length_map, ← sumBy_eq_sum]
  · rw [normProfitFactorOf, normGrossWinsOf, normGrossLossesOf,
      sumBy_eq_sum, sumBy_eq_sum, ite_ne_zero_flip]
  · rw [normWinLossRatioOf, ite_ne_zero_flip]
  · rw [normAdjustedWinLossRatioOf]
  · rw [normMaxGainLossRatioOf, ite_ne_zero_flip]
  · rw [normExpectancyOf]
